import Mathlib

/-!
Verification of the `dpytools` utility library (list chunking helpers and the
reaction-driven menus in `dpytools/menus.py`).

The Python source is embedded shallowly:

* pure helpers (`chunkify`, `chunkify_string_list`) become Lean functions;
  Python generators are modelled as the finite list of values they yield, and
  a `raise` becomes an `Except.error`;
* the reaction menus (`arrows`, `confirm`, `multichoice`) are event-driven
  loops around `bot.wait_for`; each is modelled as a function over the finite
  stream of incoming reaction events (`wait_for check` scans the stream for
  the first event satisfying `check`; an exhausted stream is the timeout).
  Every side effect on the displayed message (send, add reaction, clear
  reactions, edit, delete) is recorded in an `Op` trace;
* Python `int` values that can go negative (the paginator head) are `Int`;
  values that are sizes/ids stay `Nat`.
-/

/-- Exceptions raised by the embedded Python functions.  The two `TypeError`
constructors correspond to `multichoice`'s runtime checks `type(options) is
list` and `type(item) is str`; in this typed embedding the argument is a
`List String` so these are never produced, they only document the source. -/
inductive PyError where
  | valueErrorItemTooLong
  | rangeStepZero
  | valueErrorEmptyOptions
  | typeErrorNotAList
  | typeErrorNotAllStr
  | valueErrorOptionTooLong
  deriving DecidableEq, Repr

deriving instance DecidableEq for Except

/-- One step of `chunkify`'s loop `for i in range(0, len(input_list), max_number)`:
`m + 1` is the step `max_number`, and the fuel bounds the number of loop
iterations (`input_list.length` suffices since each iteration consumes at
least one element).  The chunk is `input_list[i:i+max_number]` and the next
iteration starts `max_number` positions later. -/
def chunkifyGo (m : Nat) : Nat → List α → List (List α)
  | _, [] => []
  | 0, _ :: _ => []
  | fuel + 1, x :: xs => (x :: xs.take m) :: chunkifyGo m fuel (xs.drop m)

/-- `chunkify(input_list, max_number)` from `dpytools/__init__.py`:
yields the slices `input_list[i:i+max_number]` for `i in
range(0, len(input_list), max_number)`.  A step of `0` makes `range` raise
`ValueError` on the first iteration. -/
def chunkify (input_list : List α) (max_number : Nat) : Except PyError (List (List α)) :=
  match max_number with
  | 0 => .error .rangeStepZero
  | m + 1 => .ok (chunkifyGo m input_list.length input_list)

/-- Length of `''.join(opt + '_' * separator_length for opt in l)`:
every item contributes its own length plus one separator allowance. -/
def joinedLen (sep : Nat) (l : List String) : Nat :=
  (l.map (fun opt => opt.length + sep)).sum

/-- The `while` condition in `chunkify_string_list`:
`len(''.join(...)) - separator_length > max_length`, computed in `Int`
because Python subtracts before comparing. -/
def tooLong (sep max_length : Nat) (l : List String) : Bool :=
  (max_length : Int) < (joinedLen sep l : Int) - (sep : Int)

/-- The inner `while` loop of `chunkify_string_list`: starting from
`n = max_number`, keep shrinking the slice `input_list[i:i+n]` (here
`rest.take n` where `rest = input_list[i:]`) while the joined length exceeds
the bound.  At `n = 0` the Python condition `0 - sep > max_length` is false
for the `Nat` parameters of this embedding, so the loop always stops by
`n = 0` yielding the empty slice. -/
def shrinkChunk (rest : List String) (sep max_length : Nat) : Nat → List String
  | 0 => []
  | n + 1 =>
    if tooLong sep max_length (rest.take (n + 1)) then
      shrinkChunk rest sep max_length n
    else
      rest.take (n + 1)

/-- The `for i in range(0, len(input_list), max_number)` loop of
`chunkify_string_list`; as in `chunkifyGo`, `m + 1` is the step and the next
slice starts `max_number` positions after the previous one regardless of how
far the inner `while` shrank the yielded chunk. -/
def chunkifyStringGo (sep max_length m : Nat) : Nat → List String → List (List String)
  | _, [] => []
  | 0, _ :: _ => []
  | fuel + 1, x :: xs =>
    shrinkChunk (x :: xs) sep max_length (m + 1) :: chunkifyStringGo sep max_length m fuel (xs.drop m)

/-- `chunkify_string_list(input_list, max_number, max_length, separator_length)`
from `dpytools/__init__.py`: first the validation
`if any([len(item) > max_length - separator_length for item in input_list]): raise ValueError(...)`,
then the chunking loop. -/
def chunkify_string_list (input_list : List String) (max_number max_length separator_length : Nat) :
    Except PyError (List (List String)) :=
  if input_list.any (fun item => (max_length : Int) - (separator_length : Int) < (item.length : Int)) then
    .error .valueErrorItemTooLong
  else
    match max_number with
    | 0 => .error .rangeStepZero
    | m + 1 => .ok (chunkifyStringGo separator_length max_length m input_list.length input_list)

/-! ## Emoji constants (`dpytools.Emoji` / `dpytools.EmojiNumbers`)

The `Emoji` enum is a `str` enum, so each member is just its glyph string;
`EmojiNumbers.*.value` coincides with the corresponding `Emoji.*.value`. -/

namespace Emoji

def THUMBS_UP : String := "👍"
def X : String := "❌"
def LAST_TRACK : String := "⏮️"
def REVERSE : String := "◀️"
def PLAY : String := "▶️"
def NEXT_TRACK : String := "⏭️"
def PAUSE : String := "⏸️"
def ONE : String := "1️⃣"
def TWO : String := "2️⃣"
def THREE : String := "3️⃣"
def FOUR : String := "4️⃣"
def FIVE : String := "5️⃣"
def SIX : String := "6️⃣"
def SEVEN : String := "7️⃣"
def EIGHT : String := "8️⃣"
def NINE : String := "9️⃣"
def TEN : String := "🔟"

end Emoji

/-! ## Menu engine model (`dpytools/menus.py`)

Every menu owns one displayed message; the side effects it performs on that
message are recorded as a trace of `Op`s.  Incoming reaction events are the
finite stream the session would observe before its final timeout;
`bot.wait_for('...', check=check, timeout=...)` returns the first event of
the remaining stream that satisfies `check`, and an exhausted stream is the
`asyncio.TimeoutError` path. -/

/-- A side effect performed on the menu's displayed message. -/
inductive Op where
  | send
  | addReaction (emoji : String)
  | clearReactions
  | editMsg
  | deleteMsg
  deriving DecidableEq, Repr

/-- `try_clear_reactions(msg)`: the clear is attempted only when the message
is in a guild (`if msg.guild:`), and `discord.errors.Forbidden` is swallowed,
so the caller observes no failure either way. -/
def try_clear_reactions (inGuild : Bool) : List Op :=
  if inGuild then [Op.clearReactions] else []

/-- A `raw_reaction_add` payload as used by `arrows` and `confirm`:
`payload.message_id`, `payload.user_id` and `payload.emoji.name`. -/
structure RawPayload where
  message_id : Nat
  user_id : Nat
  emoji : String
  deriving DecidableEq, Repr

/-! ### `arrows` -/

/-- `arrows.get_reactions(_head)`: an affordance is attached iff the probed
index lies in `range(len(embed_list))`; `head` is a Python `int`, so the
probes are genuine integer arithmetic (`0 - 2 = -2` is not in range). -/
def arrowsGetReactions (numEmbeds : Nat) (head : Int) : List String :=
  (if 0 ≤ head - 2 ∧ head - 2 < (numEmbeds : Int) then [Emoji.LAST_TRACK] else [])
    ++ (if 0 ≤ head - 1 ∧ head - 1 < (numEmbeds : Int) then [Emoji.REVERSE] else [])
    ++ (if 0 ≤ head + 1 ∧ head + 1 < (numEmbeds : Int) then [Emoji.PLAY] else [])
    ++ (if 0 ≤ head + 2 ∧ head + 2 < (numEmbeds : Int) then [Emoji.NEXT_TRACK] else [])
    ++ [Emoji.PAUSE, Emoji.X]

/-- Result of `arrows.get_head`: a new index (`int`), `True` for pause or
`False` for close. -/
inductive ArrowsAction where
  | idx (i : Int)
  | pauseStop
  | closeMenu
  deriving DecidableEq, Repr

/-- `arrows.get_head(head_, emoji_)`; `none` is the `KeyError` on an emoji
outside the `actions` dict (unreachable through `check`).  Note the `PLAY`
entry: at the last index it evaluates to `len(embed_list)`, one past the
end. -/
def arrowsGetHead (numEmbeds : Nat) (head : Int) (emoji : String) : Option ArrowsAction :=
  if emoji = Emoji.LAST_TRACK then some (.idx 0)
  else if emoji = Emoji.REVERSE then some (.idx (if head ≠ 0 then head - 1 else 0))
  else if emoji = Emoji.PLAY then
    some (.idx (if head < (numEmbeds : Int) - 1 then head + 1 else (numEmbeds : Int)))
  else if emoji = Emoji.NEXT_TRACK then some (.idx ((numEmbeds : Int) - 1))
  else if emoji = Emoji.X then some .closeMenu
  else if emoji = Emoji.PAUSE then some .pauseStop
  else none

/-- `arrows.check(payload_)`: exact message, invoking user, emoji currently
attached. -/
def arrowsCheck (msgId authorId : Nat) (toReact : List String) (p : RawPayload) : Bool :=
  (msgId == p.message_id) && (p.user_id == authorId) && toReact.contains p.emoji

/-- How an `arrows` session ended. -/
inductive ArrowsResult where
  | timedOut
  | paused
  | closed
  | fastPath
  | crashed
  deriving DecidableEq, Repr

/-- The `while True` loop of `arrows`: wait for a qualifying event (timeout
clears reactions and returns), then either stop (pause), close (clear, edit
to the closed embed), or navigate (clear, edit, re-attach the affordances of
the new head). -/
def arrowsLoop (numEmbeds msgId authorId : Nat) (inGuild : Bool) :
    Int → List String → List RawPayload → List Op × ArrowsResult
  | _, _, [] => (try_clear_reactions inGuild, .timedOut)
  | head, toReact, p :: rest =>
    if arrowsCheck msgId authorId toReact p then
      match arrowsGetHead numEmbeds head p.emoji with
      | some .pauseStop => (try_clear_reactions inGuild, .paused)
      | some .closeMenu => (try_clear_reactions inGuild ++ [Op.editMsg], .closed)
      | some (.idx head') =>
        let toReact' := arrowsGetReactions numEmbeds head'
        let next := arrowsLoop numEmbeds msgId authorId inGuild head' toReact' rest
        (try_clear_reactions inGuild ++ [Op.editMsg] ++ toReact'.map Op.addReaction ++ next.1,
          next.2)
      | none => ([], .crashed)
    else arrowsLoop numEmbeds msgId authorId inGuild head toReact rest

/-- `arrows(ctx, embed_list, ...)`: with a single embed it sends once and
returns (no affordances, no wait loop); otherwise it sends, attaches the
affordances of the initial head and enters the loop.  The embeds themselves
are opaque view data, only their count drives the state machine. -/
def arrows (embed_list : List α) (msgId authorId : Nat) (inGuild : Bool) (head : Int)
    (events : List RawPayload) : List Op × ArrowsResult :=
  if embed_list.length = 1 then ([Op.send], .fastPath)
  else
    let toReact := arrowsGetReactions embed_list.length head
    let next := arrowsLoop embed_list.length msgId authorId inGuild head toReact events
    (Op.send :: toReact.map Op.addReaction ++ next.1, next.2)

/-! ### `confirm` -/

/-- The `lock` parameter of `confirm`:
`True`/`False`, a `discord.Member`, a `discord.Role`, or `None`. -/
inductive Lock where
  | lockBool (b : Bool)
  | member (id : Nat)
  | role (id : Nat)
  | noLock
  deriving DecidableEq, Repr

/-- The two affordances of `confirm`: `['👍', '❌']`. -/
def confirmEmojis : List String := ["👍", "❌"]

/-- `confirm.check(payload)`: never the bot itself, an approve/deny emoji, the
exact dialog message; then, if `lock` is truthy, the extra identity check of
the chosen mode (`rolesOf` is the guild's member-id → role-ids lookup,
resolved at check time). -/
def confirmCheck (botId authorId msgId : Nat) (lock : Lock) (rolesOf : Nat → List Nat)
    (p : RawPayload) : Bool :=
  (p.user_id != botId) && confirmEmojis.contains p.emoji && (p.message_id == msgId) &&
    (match lock with
     | .lockBool true => p.user_id == authorId
     | .lockBool false => true
     | .noLock => true
     | .member mid => p.user_id == mid
     | .role rid => (rolesOf p.user_id).contains rid)

/-- The single `wait_for` of `confirm`: the first qualifying event decides
(`True` iff its emoji is `'👍'`), an exhausted stream is the timeout
(`None`); in every case reactions are cleared first. -/
def confirmRun (botId authorId msgId : Nat) (lock : Lock) (rolesOf : Nat → List Nat)
    (inGuild : Bool) : List RawPayload → List Op × Option Bool
  | [] => (try_clear_reactions inGuild, none)
  | p :: rest =>
    if confirmCheck botId authorId msgId lock rolesOf p then
      (try_clear_reactions inGuild, some (p.emoji == "👍"))
    else confirmRun botId authorId msgId lock rolesOf inGuild rest

/-- `confirm(ctx, msg, lock, timeout)`: attach the two affordances, then wait. -/
def confirm (botId authorId msgId : Nat) (lock : Lock) (rolesOf : Nat → List Nat)
    (inGuild : Bool) (events : List RawPayload) : List Op × Option Bool :=
  let next := confirmRun botId authorId msgId lock rolesOf inGuild events
  (confirmEmojis.map Op.addReaction ++ next.1, next.2)

/-! ### `multichoice` -/

/-- The message a reaction was placed on, as seen through
`reaction.message`: its id and its channel. -/
structure RMessage where
  id : Nat
  channel : Nat
  deriving DecidableEq, Repr

/-- A `reaction_add` event's reaction half (`multichoice` uses the
non-raw event, which carries a full `Reaction` object). -/
structure Reaction where
  message : RMessage
  emoji : String
  deriving DecidableEq, Repr

/-- The `nums` dict of `multichoice`: numeral emoji → position in the page's
chunk, in insertion order. -/
def nums : List (String × Nat) :=
  [(Emoji.ONE, 0), (Emoji.TWO, 1), (Emoji.THREE, 2), (Emoji.FOUR, 3), (Emoji.FIVE, 4),
    (Emoji.SIX, 5), (Emoji.SEVEN, 6), (Emoji.EIGHT, 7), (Emoji.NINE, 8), (Emoji.TEN, 9)]

/-- `multichoice.get_nums(_chunk)`: `list(nums)[:len(_chunk)]`, the numeral
emojis for the options present on the page. -/
def get_nums (chunk : List String) : List String :=
  (nums.map Prod.fst).take chunk.length

/-- `multichoice.get_reactions()`: the numerals of the current page, plus
(in multi-page mode) the navigation affordances gated by the page position,
plus the ever-present close. `embeds` is the list of page chunks — the
rendered `Embed` of a page is derived view data the state machine never
reads back. -/
def multichoiceGetReactions (embeds : List (List String)) (multiple : Bool) (head : Nat) :
    List String :=
  let base := get_nums (embeds.getD head [])
  let withNav :=
    if multiple then
      if head ≠ 0 ∧ head ≠ embeds.length - 1 then
        [Emoji.LAST_TRACK, Emoji.REVERSE] ++ base ++ [Emoji.PLAY, Emoji.NEXT_TRACK]
      else if head = 0 then base ++ [Emoji.PLAY, Emoji.NEXT_TRACK]
      else [Emoji.LAST_TRACK, Emoji.REVERSE] ++ base
    else base
  withNav ++ [Emoji.X]

/-- `multichoice.adjust_head(head_, emoji)`: in single-page mode the Python
function falls through to a bare `return` (i.e. `None`, and the caller would
then crash on `embeds[None]`); in multi-page mode the four navigation emojis
move the head with both ends clamped, and any other emoji leaves it
unchanged.  The head starts at 0 and never goes negative, so it is a `Nat`
here. -/
def adjust_head (multiple : Bool) (numEmbeds : Nat) (head : Nat) (emoji : String) : Option Nat :=
  if !multiple then none
  else some (
    if emoji = Emoji.LAST_TRACK then 0
    else if emoji = Emoji.REVERSE then (if 0 < head then head - 1 else head)
    else if emoji = Emoji.PLAY then (if head < numEmbeds - 1 then head + 1 else head)
    else if emoji = Emoji.NEXT_TRACK then numEmbeds - 1
    else head)

/-- `multichoice.check(reaction, user)`: not the bot, the invoking user, the
originating channel, an attached emoji — the reaction's message id is never
compared. -/
def multichoiceCheck (botUser authorUser ctxChannel : Nat) (toReact : List String)
    (r : Reaction) (user : Nat) : Bool :=
  (user != botUser) && (user == authorUser) && (ctxChannel == r.message.channel) &&
    toReact.contains r.emoji

/-- How a `multichoice` session ended: a selected option, no value (close or
timeout, both `return` with the message deleted), or an unhandled exception
(`embeds[None]` after single-page navigation, or a numeral indexing past the
current chunk). -/
inductive MultiOutcome where
  | selected (s : String)
  | noValue
  | crashed
  deriving DecidableEq, Repr

/-- The `while True` loop of `multichoice`: timeout and close delete the
message; a numeral returns `embeds[head][0][nums[emoji]]` after deleting;
a navigation emoji edits the embed, then tries `msg.clear_reactions()` —
on `Forbidden` the swallowed failure also skips re-attaching (the `else:`
of the `try`), leaving the previous affordance set active. -/
def multichoiceLoop (embeds : List (List String)) (multiple : Bool)
    (botUser authorUser ctxChannel : Nat) (clearForbidden : Bool) :
    Nat → List String → List (Reaction × Nat) → List Op × MultiOutcome
  | _, _, [] => ([Op.deleteMsg], .noValue)
  | head, toReact, (r, user) :: rest =>
    if multichoiceCheck botUser authorUser ctxChannel toReact r user then
      if r.emoji = Emoji.X then ([Op.deleteMsg], .noValue)
      else
        match nums.lookup r.emoji with
        | some k =>
          match (embeds.getD head []).get? k with
          | some s => ([Op.deleteMsg], .selected s)
          | none => ([], .crashed)
        | none =>
          match adjust_head multiple embeds.length head r.emoji with
          | none => ([], .crashed)
          | some head' =>
            if clearForbidden then
              let next := multichoiceLoop embeds multiple botUser authorUser ctxChannel
                clearForbidden head' toReact rest
              ([Op.editMsg, Op.clearReactions] ++ next.1, next.2)
            else
              let toReact' := multichoiceGetReactions embeds multiple head'
              let next := multichoiceLoop embeds multiple botUser authorUser ctxChannel
                clearForbidden head' toReact' rest
              ([Op.editMsg, Op.clearReactions] ++ toReact'.map Op.addReaction ++ next.1, next.2)
    else multichoiceLoop embeds multiple botUser authorUser ctxChannel clearForbidden head
      toReact rest

/-- `multichoice(ctx, options, timeout, base_embed)`: the four synchronous
validations in source order (the two `TypeError` checks cannot fire in this
typed embedding), then the pages are built by
`chunkify_string_list(options, 10, 2000, separator_length=10)` — whose own
validation can raise here, before anything is sent — then the menu message
is sent, the initial affordances attached, and the loop entered. -/
def multichoice (options : List String) (botUser authorUser ctxChannel : Nat)
    (clearForbidden : Bool) (events : List (Reaction × Nat)) :
    Except PyError (List Op × MultiOutcome) :=
  if options = [] then .error .valueErrorEmptyOptions
  else if options.any (fun opt => 2000 < opt.length) then .error .valueErrorOptionTooLong
  else
    match chunkify_string_list options 10 2000 10 with
    | .error e => .error e
    | .ok embeds =>
      let multiple := 10 < options.length
      let toReact := multichoiceGetReactions embeds multiple 0
      let next := multichoiceLoop embeds multiple botUser authorUser ctxChannel clearForbidden
        0 toReact events
      .ok (Op.send :: toReact.map Op.addReaction ++ next.1, next.2)

/-! ### Concrete scenario data used by the theorems -/

/-- Twenty-five one-character options; `opts25.get? 12 = some "m"`,
`opts25.get? 13 = some "n"`. -/
def opts25 : List String :=
  ["a", "b", "c", "d", "e", "f", "g", "h", "i", "j", "k", "l", "m", "n", "o", "p", "q",
    "r", "s", "t", "u", "v", "w", "x", "y"]

/-- The invoking user (id 1) presses `next` on the menu message in channel 5. -/
def evPlay : Reaction × Nat := (⟨⟨100, 5⟩, Emoji.PLAY⟩, 1)

/-- The invoking user presses the numeral-3 affordance. -/
def evThree : Reaction × Nat := (⟨⟨100, 5⟩, Emoji.THREE⟩, 1)

/-- An option of exactly 2000 characters: within `multichoice`'s own length
cap, but over the cap `chunkify_string_list` enforces. -/
def longOpt : String := String.mk (List.replicate 2000 'a')

/-- The six emojis `arrows.get_head` knows. -/
def arrowsEmojis : List String :=
  [Emoji.LAST_TRACK, Emoji.REVERSE, Emoji.PLAY, Emoji.NEXT_TRACK, Emoji.PAUSE, Emoji.X]

/-- The operations an `arrows` exit path performs, read off the source's
`return` statements: timeout (`menus.py:119`) and pause (`:122-123`) perform
one `try_clear_reactions` call; close (`:125-127`) performs one
`try_clear_reactions` call followed by the edit to the closed embed.  The
single-embed fast path performs nothing, and `crashed` (the unreachable
`KeyError`) aborts mid-statement. -/
def arrowsExit (inGuild : Bool) : ArrowsResult → List Op
  | .timedOut => try_clear_reactions inGuild
  | .paused => try_clear_reactions inGuild
  | .closed => try_clear_reactions inGuild ++ [Op.editMsg]
  | .fastPath => []
  | .crashed => []

/-- Eleven one-character options: the smallest multi-page selector
(pages of sizes 10 and 1). -/
def opts11 : List String := ["a", "b", "c", "d", "e", "f", "g", "h", "i", "j", "k"]

/-! ## Shared helper lemmas -/

/-- Membership of the `next` affordance: `PLAY` is attached iff
`head + 1` is a valid index. -/
theorem play_mem_arrowsGetReactions (n : Nat) (h : Int) :
    Emoji.PLAY ∈ arrowsGetReactions n h ↔ 0 ≤ h + 1 ∧ h + 1 < (n : Int) := by
  have h1 : Emoji.PLAY ≠ Emoji.LAST_TRACK := by decide
  have h2 : Emoji.PLAY ≠ Emoji.REVERSE := by decide
  have h3 : Emoji.PLAY ≠ Emoji.NEXT_TRACK := by decide
  have h4 : Emoji.PLAY ≠ Emoji.PAUSE := by decide
  have h5 : Emoji.PLAY ≠ Emoji.X := by decide
  simp [arrowsGetReactions, h1, h2, h3, h4, h5]

/-- Every emoji `arrows.get_reactions` ever attaches is one of the six keys
of `arrows.get_head`'s action table. -/
theorem mem_arrowsGetReactions (n : Nat) (h : Int) :
    ∀ e ∈ arrowsGetReactions n h, e ∈ arrowsEmojis := by
  intro e he
  simp [arrowsGetReactions] at he
  simp only [arrowsEmojis, List.mem_cons, List.not_mem_nil, or_false]
  tauto

/-- `arrows.get_head` is defined (no `KeyError`) on every emoji the menu
attaches. -/
theorem arrowsGetHead_isSome (n : Nat) (h : Int) (e : String) (he : e ∈ arrowsEmojis) :
    (arrowsGetHead n h e).isSome := by
  simp only [arrowsEmojis, List.mem_cons, List.not_mem_nil, or_false] at he
  rcases he with rfl | rfl | rfl | rfl | rfl | rfl <;> rfl

/-! ## Claims -/

/-- C1 — counterexample.  `multichoice.check` never compares the reaction's
message id with the menu message's id: with the session's menu message having
id 100, a qualifying reaction by the invoking user (id 1, bot id 2) in the
originating channel (id 5) with an attached emoji passes the check whether it
was placed on message 100 or on a different message 101 of the same
channel. -/
theorem multichoice_check_ignores_message_id :
    multichoiceCheck 2 1 5 [Emoji.ONE, Emoji.X] ⟨⟨101, 5⟩, Emoji.ONE⟩ 1 = true ∧
    multichoiceCheck 2 1 5 [Emoji.ONE, Emoji.X] ⟨⟨100, 5⟩, Emoji.ONE⟩ 1 = true ∧
    (101 : Nat) ≠ 100 := by decide

/-- C1 — amended.  A `reaction_add` event qualifies in `multichoice` iff its
user is the invoking user (and not the bot), the message it was placed on
lies in the originating channel, and its emoji is currently attached; the
event's message id is not constrained. -/
theorem multichoice_check_characterization (botUser authorUser ctxChannel : Nat)
    (toReact : List String) (r : Reaction) (user : Nat) :
    multichoiceCheck botUser authorUser ctxChannel toReact r user = true ↔
      user ≠ botUser ∧ user = authorUser ∧ ctxChannel = r.message.channel ∧
        r.emoji ∈ toReact := by
  simp [multichoiceCheck, List.elem_iff, and_assoc]

/-- C2.  For every qualifying `next`/`play` event — `PLAY` being currently
attached is part of qualifying — the transition computed by `arrows.get_head`
is exactly `min(head + 1, len − 1)`, which is a valid index and in particular
never `len(embed_list)`; and at the last view `PLAY` is not attached at all,
so no `next` event can qualify there. -/
theorem arrows_play_clamps (n : Nat) (h : Int)
    (hq : Emoji.PLAY ∈ arrowsGetReactions n h) :
    arrowsGetHead n h Emoji.PLAY = some (.idx (min (h + 1) ((n : Int) - 1))) ∧
    0 ≤ h + 1 ∧ h + 1 ≤ (n : Int) - 1 ∧ h + 1 ≠ (n : Int) ∧
    Emoji.PLAY ∉ arrowsGetReactions n ((n : Int) - 1) := by
  rw [play_mem_arrowsGetReactions] at hq
  obtain ⟨h0, h1⟩ := hq
  have e : arrowsGetHead n h Emoji.PLAY
      = some (.idx (if h < (n : Int) - 1 then h + 1 else (n : Int))) := rfl
  rw [e, if_pos (by omega), min_eq_left (by omega)]
  refine ⟨rfl, by omega, by omega, by omega, ?_⟩
  rw [play_mem_arrowsGetReactions]
  omega

/-- C2 — witness at 3 embeds, head 1. -/
theorem arrows_play_clamps_witness :
    arrowsGetHead 3 1 Emoji.PLAY = some (.idx (min ((1 : Int) + 1) (((3 : Nat) : Int) - 1))) ∧
    (0 : Int) ≤ 1 + 1 ∧ (1 : Int) + 1 ≤ ((3 : Nat) : Int) - 1 ∧
    (1 : Int) + 1 ≠ ((3 : Nat) : Int) ∧
    Emoji.PLAY ∉ arrowsGetReactions 3 (((3 : Nat) : Int) - 1) :=
  arrows_play_clamps 3 1 (by decide)

/-- C3.  `chunkify_string_list(['aaa','b','c'], 2, 3, 0)` yields
`[['aaa'], ['c']]`: the inner `while` shrank the first chunk below
`max_number` items, but the next slice still starts `max_number` positions
later, so `'b'` appears in no chunk and the concatenation of the chunks does
not reconstruct the input. -/
theorem chunkify_string_list_loses_items :
    chunkify_string_list ["aaa", "b", "c"] 2 3 0 = .ok [["aaa"], ["c"]] ∧
    "b" ∈ (["aaa", "b", "c"] : List String) ∧
    "b" ∉ ([["aaa"], ["c"]] : List (List String)).flatten ∧
    ([["aaa"], ["c"]] : List (List String)).flatten ≠ ["aaa", "b", "c"] := by decide

/-- C4 — counterexample.  With the 25 short options `opts25`, the pages have
sizes 10, 10, 5, and selecting the numeral-3 affordance while page 1
(0-indexed) is displayed returns `"m" = options[12]`, not
`options[13] = "n"`. -/
theorem multichoice_numeral3_page1_not_13 :
    (chunkify_string_list opts25 10 2000 10).map (fun cs => cs.map List.length)
        = .ok [10, 10, 5] ∧
    (multichoice opts25 2 1 5 false [evPlay, evThree]).map Prod.snd
        = .ok (.selected "m") ∧
    opts25.get? 13 = some "n" ∧ ("m" : String) ≠ "n" := by decide

/-- C4 — amended.  Same scenario, but the returned option is
`options[13 - 1] = options[12]`: numeral `k` maps to position `k − 1` of the
current page's chunk. -/
theorem multichoice_numeral3_page1_selects_12 :
    (chunkify_string_list opts25 10 2000 10).map (fun cs => cs.map List.length)
        = .ok [10, 10, 5] ∧
    (multichoice opts25 2 1 5 false [evPlay, evThree]).map Prod.snd
        = .ok (.selected "m") ∧
    opts25.get? 12 = some "m" := by decide

/-- C5 — counterexample.  `[longOpt]` is a non-empty list of strings, each at
most 2000 characters, yet `multichoice` raises a `ValueError` before sending
anything: `chunkify_string_list(options, 10, 2000, separator_length=10)`
rejects every item longer than `2000 - 10 = 1990` characters. -/
theorem multichoice_rejects_2000_char_option :
    longOpt.length = 2000 ∧
    multichoice [longOpt] 2 1 5 false [] = .error .valueErrorItemTooLong := by
  have hlen : longOpt.length = 2000 := by
    have h : longOpt.length = (List.replicate 2000 'a').length := rfl
    rw [h, List.length_replicate]
  refine ⟨hlen, ?_⟩
  have h2 : ([longOpt].any fun opt => 2000 < opt.length) = false := by
    simp only [List.any_cons, List.any_nil, Bool.or_false, hlen]
    simp
  have h3 : chunkify_string_list [longOpt] 10 2000 10 = .error .valueErrorItemTooLong := by
    unfold chunkify_string_list
    rw [if_pos]
    refine List.any_eq_true.mpr ⟨longOpt, by simp, ?_⟩
    simp [hlen]
  simp [multichoice, h2, h3]

/-- C5 — amended.  `multichoice` raises a validation error synchronously,
before the menu message is sent, iff the options list is empty or some
option exceeds 1990 characters (2000 minus the separator allowance 10 that
`chunkify_string_list` reserves); for every non-empty list of options of at
most 1990 characters each, no error is raised and the menu message is sent
(the trace of the call starts with the send). -/
theorem multichoice_validation_characterization (options : List String)
    (botUser authorUser ctxChannel : Nat) (clearForbidden : Bool)
    (events : List (Reaction × Nat)) :
    ((∃ e, multichoice options botUser authorUser ctxChannel clearForbidden events
        = .error e) ↔
      options = [] ∨ ∃ opt ∈ options, 1990 < opt.length) ∧
    (∀ trace outcome,
      multichoice options botUser authorUser ctxChannel clearForbidden events
          = .ok (trace, outcome) →
      Op.send ∈ trace) := by
  by_cases hnil : options = []
  · subst hnil
    constructor
    · simp [multichoice]
    · intro trace outcome h
      simp [multichoice] at h
  · by_cases hlong : ∃ opt ∈ options, 1990 < opt.length
    · constructor
      · simp only [multichoice, hnil, if_false, hlong, or_true, iff_true]
        by_cases h2000 : options.any (fun opt => 2000 < opt.length)
        · simp [h2000]
        · have hchunk : chunkify_string_list options 10 2000 10
              = .error .valueErrorItemTooLong := by
            unfold chunkify_string_list
            rw [if_pos]
            obtain ⟨opt, hmem, hlen⟩ := hlong
            refine List.any_eq_true.mpr ⟨opt, hmem, ?_⟩
            simp
            omega
          simp [h2000, hchunk]
      · intro trace outcome h
        exfalso
        simp only [multichoice, hnil, if_false] at h
        by_cases h2000 : options.any (fun opt => 2000 < opt.length)
        · simp [h2000] at h
        · have hchunk : chunkify_string_list options 10 2000 10
              = .error .valueErrorItemTooLong := by
            unfold chunkify_string_list
            rw [if_pos]
            obtain ⟨opt, hmem, hlen⟩ := hlong
            refine List.any_eq_true.mpr ⟨opt, hmem, ?_⟩
            simp
            omega
          simp [h2000, hchunk] at h
    · have h2000 : options.any (fun opt => 2000 < opt.length) = false := by
        rw [List.any_eq_false]
        intro opt hmem
        simp only [decide_eq_true_eq]
        intro hgt
        exact hlong ⟨opt, hmem, by omega⟩
      have hchunkOk : ∃ cs, chunkify_string_list options 10 2000 10 = .ok cs := by
        unfold chunkify_string_list
        rw [if_neg]
        · exact ⟨_, rfl⟩
        · intro hany
          obtain ⟨opt, hmem, hlen⟩ := List.any_eq_true.mp hany
          simp at hlen
          exact hlong ⟨opt, hmem, by omega⟩
      obtain ⟨cs, hcs⟩ := hchunkOk
      constructor
      · simp [multichoice, hnil, h2000, hcs, hlong]
      · intro trace outcome h
        simp only [multichoice, hnil, if_false, h2000, Bool.false_eq_true, hcs] at h
        obtain ⟨htrace, -⟩ := Prod.mk.injEq .. ▸ (Except.ok.injEq .. ▸ h)
        rw [← htrace]
        exact List.mem_cons_self ..

/-- C5 — witness: the amended characterization applied to the single option
`"a"`; the resulting trace starts with the send of the menu message. -/
theorem multichoice_validation_witness :
    Op.send ∈ [Op.send, Op.addReaction Emoji.ONE, Op.addReaction Emoji.X, Op.deleteMsg] :=
  (multichoice_validation_characterization ["a"] 2 1 5 false []).2
    [Op.send, Op.addReaction Emoji.ONE, Op.addReaction Emoji.X, Op.deleteMsg]
    .noValue (by decide)

/-- C6.  `chunkify_string_list` raises its item-length `ValueError` — and
yields no chunk — exactly when some item is longer than
`max_length - separator_length` (Python integer arithmetic, so the bound can
be negative). -/
theorem chunkify_string_list_item_check (input_list : List String)
    (max_number max_length separator_length : Nat) :
    chunkify_string_list input_list max_number max_length separator_length
        = .error .valueErrorItemTooLong ↔
      ∃ item ∈ input_list,
        (max_length : Int) - (separator_length : Int) < (item.length : Int) := by
  unfold chunkify_string_list
  by_cases hA : (input_list.any fun item =>
      decide ((max_length : Int) - (separator_length : Int) < (item.length : Int))) = true
  · simp only [hA, if_true]
    simp only [List.any_eq_true, decide_eq_true_eq] at hA
    simpa using hA
  · simp only [hA, if_false]
    have hno : ¬ ∃ item ∈ input_list,
        (max_length : Int) - (separator_length : Int) < (item.length : Int) := by
      intro hex
      exact hA (List.any_eq_true.mpr (by simpa using hex))
    cases max_number <;> simp [hno]

/-- The chunks of `chunkify` concatenate back to the input (given enough
fuel, which `chunkify` always supplies). -/
theorem chunkifyGo_flatten (m : Nat) :
    ∀ (fuel : Nat) (l : List α), l.length ≤ fuel → (chunkifyGo m fuel l).flatten = l := by
  intro fuel
  induction fuel with
  | zero =>
    intro l hl
    cases l with
    | nil => rfl
    | cons x xs => simp at hl
  | succ f ih =>
    intro l hl
    cases l with
    | nil => rfl
    | cons x xs =>
      simp only [List.length_cons] at hl
      simp only [chunkifyGo, List.flatten_cons, List.cons_append]
      rw [ih (xs.drop m) (by simp only [List.length_drop]; omega)]
      simp [List.take_append_drop]

/-- Every chunk of `chunkify` has at most `m + 1` elements. -/
theorem chunkifyGo_chunk_le (m : Nat) :
    ∀ (fuel : Nat) (l : List α), ∀ c ∈ chunkifyGo m fuel l, c.length ≤ m + 1 := by
  intro fuel
  induction fuel with
  | zero =>
    intro l c hc
    cases l with
    | nil => simp [chunkifyGo] at hc
    | cons x xs => simp [chunkifyGo] at hc
  | succ f ih =>
    intro l c hc
    cases l with
    | nil => simp [chunkifyGo] at hc
    | cons x xs =>
      simp only [chunkifyGo, List.mem_cons] at hc
      rcases hc with rfl | hc
      · simp only [List.length_cons, List.length_take]
        omega
      · exact ih (xs.drop m) c hc

/-- Every chunk of `chunkify` except possibly the last has exactly `m + 1`
elements. -/
theorem chunkifyGo_full (m : Nat) :
    ∀ (fuel : Nat) (l : List α), l.length ≤ fuel →
      ∀ i, i + 1 < (chunkifyGo m fuel l).length →
        ((chunkifyGo m fuel l).getD i []).length = m + 1 := by
  intro fuel
  induction fuel with
  | zero =>
    intro l hl i hi
    cases l with
    | nil => simp [chunkifyGo] at hi
    | cons x xs => simp at hl
  | succ f ih =>
    intro l hl i hi
    cases l with
    | nil => simp [chunkifyGo] at hi
    | cons x xs =>
      simp only [List.length_cons] at hl
      simp only [chunkifyGo, List.length_cons] at hi ⊢
      cases i with
      | zero =>
        have hrest : chunkifyGo m f (xs.drop m) ≠ [] := by
          intro h0
          rw [h0] at hi
          simp at hi
        have hxs : xs.drop m ≠ [] := by
          intro h0
          rw [h0] at hrest
          cases f <;> simp [chunkifyGo] at hrest
        have hdlen : 0 < (xs.drop m).length := List.length_pos.mpr hxs
        rw [List.length_drop] at hdlen
        simp [List.length_take]
        omega
      | succ j =>
        simp only [List.getD_cons_succ]
        exact ih (xs.drop m) (by simp only [List.length_drop]; omega) j (by omega)

/-- C7.  For every list and every positive chunk size, `chunkify` succeeds,
its chunks concatenated in order reconstruct the input exactly, every chunk
has at most `n` elements and all but possibly the last have exactly `n`;
concretely `chunkify([1..7], 3) = [[1,2,3],[4,5,6],[7]]`. -/
theorem chunkify_spec :
    (∀ (α : Type) (l : List α) (n : Nat), 0 < n →
      ∃ chunks, chunkify l n = .ok chunks ∧ chunks.flatten = l ∧
        (∀ c ∈ chunks, c.length ≤ n) ∧
        (∀ i, i + 1 < chunks.length → (chunks.getD i []).length = n)) ∧
    chunkify [1, 2, 3, 4, 5, 6, 7] 3 = .ok [[1, 2, 3], [4, 5, 6], [7]] := by
  constructor
  · intro α l n hn
    obtain ⟨m, rfl⟩ : ∃ m, n = m + 1 := ⟨n - 1, by omega⟩
    exact ⟨chunkifyGo m l.length l, rfl, chunkifyGo_flatten m l.length l le_rfl,
      chunkifyGo_chunk_le m l.length l,
      fun i hi => chunkifyGo_full m l.length l le_rfl i hi⟩
  · decide

/-- C7 — witness at `["a", "b", "c"]` with chunk size 2. -/
theorem chunkify_spec_witness :
    ∃ chunks, chunkify ["a", "b", "c"] 2 = .ok chunks ∧ chunks.flatten = ["a", "b", "c"] ∧
      (∀ c ∈ chunks, c.length ≤ 2) ∧
      (∀ i, i + 1 < chunks.length → (chunks.getD i []).length = 2) :=
  chunkify_spec.1 String ["a", "b", "c"] 2 (by decide)

/-- Events failing `confirm.check` are skipped: the wait continues on the
rest of the stream. -/
theorem confirmRun_append_of_fail (botId authorId msgId : Nat) (lock : Lock)
    (rolesOf : Nat → List Nat) (inGuild : Bool) (pre rest : List RawPayload)
    (hpre : ∀ q ∈ pre, confirmCheck botId authorId msgId lock rolesOf q = false) :
    confirmRun botId authorId msgId lock rolesOf inGuild (pre ++ rest)
      = confirmRun botId authorId msgId lock rolesOf inGuild rest := by
  induction pre with
  | nil => rfl
  | cons q qs ih =>
    have hq := hpre q (List.mem_cons_self ..)
    simp only [List.cons_append, confirmRun, hq, Bool.false_eq_true, if_false]
    exact ih fun x hx => hpre x (List.mem_cons_of_mem _ hx)

/-- C8.  With any stream whose first qualifying event is `p` (all of `pre`
fails the check), `confirm` returns `True` if `p` carries the approve emoji
and `False` if it carries the deny emoji; with no qualifying event in the
window (`pre` alone) it returns `None`.  The non-qualifying `pre` events
cause no transition: the outcome is decided by `p` alone. -/
theorem confirm_outcomes (botId authorId msgId : Nat) (lock : Lock)
    (rolesOf : Nat → List Nat) (inGuild : Bool) (pre post : List RawPayload) (p : RawPayload)
    (hpre : ∀ q ∈ pre, confirmCheck botId authorId msgId lock rolesOf q = false)
    (hp : confirmCheck botId authorId msgId lock rolesOf p = true) :
    (p.emoji = "👍" →
      (confirm botId authorId msgId lock rolesOf inGuild (pre ++ p :: post)).2 = some true) ∧
    (p.emoji = "❌" →
      (confirm botId authorId msgId lock rolesOf inGuild (pre ++ p :: post)).2 = some false) ∧
    (confirm botId authorId msgId lock rolesOf inGuild pre).2 = none := by
  have hrun : confirmRun botId authorId msgId lock rolesOf inGuild (pre ++ p :: post)
      = (try_clear_reactions inGuild, some (p.emoji == "👍")) := by
    rw [confirmRun_append_of_fail botId authorId msgId lock rolesOf inGuild pre (p :: post) hpre]
    simp [confirmRun, hp]
  have hnone : confirmRun botId authorId msgId lock rolesOf inGuild pre
      = (try_clear_reactions inGuild, none) := by
    have h0 := confirmRun_append_of_fail botId authorId msgId lock rolesOf inGuild pre [] hpre
    rw [List.append_nil] at h0
    rw [h0]
    rfl
  refine ⟨fun he => ?_, fun he => ?_, ?_⟩
  · simp [confirm, hrun, he]
  · simp [confirm, hrun, he]
  · simp [confirm, hnone]

/-- C8 — witness: bot id 2, invoking user 1, dialog message 100, default
lock; an unauthorized 👍 by user 3 is ignored, then user 1's 👍 decides. -/
theorem confirm_outcomes_witness :
    ((⟨100, 1, "👍"⟩ : RawPayload).emoji = "👍" →
      (confirm 2 1 100 (.lockBool true) (fun _ => []) true
        ([⟨100, 3, "👍"⟩] ++ ⟨100, 1, "👍"⟩ :: [])).2 = some true) ∧
    ((⟨100, 1, "👍"⟩ : RawPayload).emoji = "❌" →
      (confirm 2 1 100 (.lockBool true) (fun _ => []) true
        ([⟨100, 3, "👍"⟩] ++ ⟨100, 1, "👍"⟩ :: [])).2 = some false) ∧
    (confirm 2 1 100 (.lockBool true) (fun _ => []) true [⟨100, 3, "👍"⟩]).2 = none :=
  confirm_outcomes 2 1 100 (.lockBool true) (fun _ => []) true
    [⟨100, 3, "👍"⟩] [] ⟨100, 1, "👍"⟩ (by decide) (by decide)

/-- C9 — counterexample.  In open mode (`lock=False`) a 👍 reaction on the
dialog message still does not qualify when it comes from the bot's own user
id (bot id 2 here): `check` starts with `payload.user_id != ctx.bot.user.id`
unconditionally. -/
theorem confirm_open_mode_excludes_bot :
    confirmCheck 2 1 100 (.lockBool false) (fun _ => []) ⟨100, 2, "👍"⟩ = false ∧
    ("👍" : String) ∈ confirmEmojis := by decide

/-- C9 — amended.  In open mode an approve/deny reaction on the dialog
message qualifies for every user id except the bot's own. -/
theorem confirm_open_mode_characterization (botId authorId msgId : Nat)
    (rolesOf : Nat → List Nat) (p : RawPayload)
    (hm : p.message_id = msgId) (he : p.emoji ∈ confirmEmojis) :
    confirmCheck botId authorId msgId (.lockBool false) rolesOf p = true ↔
      p.user_id ≠ botId := by
  have hc : confirmEmojis.contains p.emoji = true := by
    simpa [List.elem_iff] using he
  simp [confirmCheck, hc, hm]
  exact fun _ => he

/-- C9 — witness: user 7 (neither author 1 nor bot 2) qualifies in open
mode. -/
theorem confirm_open_mode_witness :
    confirmCheck 2 1 100 (.lockBool false) (fun _ => []) ⟨100, 7, "👍"⟩ = true ↔
      (7 : Nat) ≠ 2 :=
  confirm_open_mode_characterization 2 1 100 (fun _ => []) ⟨100, 7, "👍"⟩ rfl (by decide)

/-- C10 — counterexample.  A `multichoice` call that exits by timeout (two
options, no events) deletes the menu message and never attempts the
affordance-clear operation: zero `clearReactions` in its whole trace, so
"every menu entry point attempts the affordance-clear exactly once on every
exit path" fails for `multichoice`. -/
theorem multichoice_timeout_never_clears :
    multichoice ["a", "b"] 2 1 5 false []
      = .ok ([Op.send, Op.addReaction Emoji.ONE, Op.addReaction Emoji.TWO,
          Op.addReaction Emoji.X, Op.deleteMsg], .noValue) ∧
    ([Op.send, Op.addReaction Emoji.ONE, Op.addReaction Emoji.TWO,
        Op.addReaction Emoji.X, Op.deleteMsg].count Op.clearReactions) = 0 := by decide


/-- Whatever the event stream, `confirm`'s wait ends — by timeout or by a
qualifying event — with the ops of exactly one `try_clear_reactions` call
and nothing else. -/
theorem confirmRun_ops (botId authorId msgId : Nat) (lock : Lock)
    (rolesOf : Nat → List Nat) (inGuild : Bool) :
    ∀ events : List RawPayload,
      (confirmRun botId authorId msgId lock rolesOf inGuild events).1
        = try_clear_reactions inGuild := by
  intro events
  induction events with
  | nil => rfl
  | cons p rest ih =>
    by_cases hc : confirmCheck botId authorId msgId lock rolesOf p
    · simp [confirmRun, hc]
    · simpa [confirmRun, hc] using ih

/-- The `arrows` wait loop always exits through one of the three source
`return` statements: its trace is the navigation renders followed by exactly
the exit segment `arrowsExit` of its result. -/
theorem arrowsLoop_decomp (n msgId authorId : Nat) (inGuild : Bool) :
    ∀ (events : List RawPayload) (head : Int) (toReact : List String),
      (∀ e ∈ toReact, e ∈ arrowsEmojis) →
      ∃ navOps,
        (arrowsLoop n msgId authorId inGuild head toReact events).1
          = navOps ++ arrowsExit inGuild
              (arrowsLoop n msgId authorId inGuild head toReact events).2
        ∧ ((arrowsLoop n msgId authorId inGuild head toReact events).2 = .timedOut
          ∨ (arrowsLoop n msgId authorId inGuild head toReact events).2 = .paused
          ∨ (arrowsLoop n msgId authorId inGuild head toReact events).2 = .closed) := by
  intro events
  induction events with
  | nil =>
    intro head toReact hsub
    exact ⟨[], by simp [arrowsLoop, arrowsExit], Or.inl rfl⟩
  | cons p rest ih =>
    intro head toReact hsub
    by_cases hc : arrowsCheck msgId authorId toReact p
    · have hmem : p.emoji ∈ arrowsEmojis := by
        have hcontains : toReact.contains p.emoji := by
          simp only [arrowsCheck, Bool.and_eq_true] at hc
          exact hc.2
        exact hsub _ (List.elem_iff.mp hcontains)
      have hsome := arrowsGetHead_isSome n head p.emoji hmem
      cases hgh : arrowsGetHead n head p.emoji with
      | none => rw [hgh] at hsome; simp at hsome
      | some a =>
        cases a with
        | pauseStop =>
          exact ⟨[], by simp [arrowsLoop, hc, hgh, arrowsExit],
            by simp [arrowsLoop, hc, hgh]⟩
        | closeMenu =>
          exact ⟨[], by simp [arrowsLoop, hc, hgh, arrowsExit],
            by simp [arrowsLoop, hc, hgh]⟩
        | idx h' =>
          obtain ⟨navOps', h1, h2⟩ :=
            ih h' (arrowsGetReactions n h') (mem_arrowsGetReactions n h')
          refine ⟨try_clear_reactions inGuild ++ Op.editMsg
              :: (arrowsGetReactions n h').map Op.addReaction ++ navOps', ?_, ?_⟩
          · simp only [arrowsLoop, hc, if_true, hgh]
            rw [h1]
            simp [List.append_assoc]
          · simp only [arrowsLoop, hc, if_true, hgh]
            exact h2
    · simpa [arrowsLoop, hc] using ih head toReact hsub

/-- The `multichoice` wait loop, whenever it exits at all (instead of
raising), ends its trace with exactly the message delete; everything before
that — in particular every `clear_reactions` attempt — belongs to a
navigation transition (edit, clear, re-attach). -/
theorem multichoiceLoop_decomp (embeds : List (List String)) (multiple : Bool)
    (botUser authorUser ctxChannel : Nat) (cf : Bool) :
    ∀ (events : List (Reaction × Nat)) (head : Nat) (toReact : List String),
      (multichoiceLoop embeds multiple botUser authorUser ctxChannel cf head toReact events).2
        ≠ .crashed →
      ∃ navOps,
        (multichoiceLoop embeds multiple botUser authorUser ctxChannel cf head toReact
            events).1
          = navOps ++ [Op.deleteMsg]
        ∧ ∀ op ∈ navOps,
            op = Op.editMsg ∨ op = Op.clearReactions ∨ ∃ e, op = Op.addReaction e := by
  intro events
  induction events with
  | nil =>
    intro head toReact _
    exact ⟨[], rfl, by simp⟩
  | cons ev rest ih =>
    intro head toReact hcr
    obtain ⟨r, user⟩ := ev
    by_cases hc : multichoiceCheck botUser authorUser ctxChannel toReact r user
    · by_cases hx : r.emoji = Emoji.X
      · exact ⟨[], by simp [multichoiceLoop, hc, hx], by simp⟩
      · cases hl : nums.lookup r.emoji with
        | some k =>
          cases hg : (embeds.getD head []).get? k with
          | some s =>
            simp at hg
            exact ⟨[], by simp [multichoiceLoop, hc, hx, hl, hg], by simp⟩
          | none =>
            exfalso
            apply hcr
            simp at hg
            have hg2 : (embeds[head]?.getD ([] : List String))[k]? = none :=
              List.getElem?_eq_none hg
            simp [multichoiceLoop, hc, hx, hl, hg2]
        | none =>
          cases hadj : adjust_head multiple embeds.length head r.emoji with
          | none =>
            exfalso
            apply hcr
            simp [multichoiceLoop, hc, hx, hl, hadj]
          | some h' =>
            cases cf with
            | true =>
              have hcr2 : (multichoiceLoop embeds multiple botUser authorUser ctxChannel true
                  h' toReact rest).2 ≠ .crashed := by
                intro h0
                apply hcr
                simp [multichoiceLoop, hc, hx, hl, hadj, h0]
              obtain ⟨navOps', h1, h2⟩ := ih h' toReact hcr2
              refine ⟨Op.editMsg :: Op.clearReactions :: navOps', ?_, ?_⟩
              · simp only [multichoiceLoop, hc, if_true, hl, hadj]
                rw [if_neg hx, h1]
                simp
              · intro op hop
                simp only [List.mem_cons] at hop
                rcases hop with rfl | rfl | hop
                · exact Or.inl rfl
                · exact Or.inr (Or.inl rfl)
                · exact h2 op hop
            | false =>
              have hcr2 : (multichoiceLoop embeds multiple botUser authorUser ctxChannel false
                  h' (multichoiceGetReactions embeds multiple h') rest).2 ≠ .crashed := by
                intro h0
                apply hcr
                simp [multichoiceLoop, hc, hx, hl, hadj, h0]
              obtain ⟨navOps', h1, h2⟩ :=
                ih h' (multichoiceGetReactions embeds multiple h') hcr2
              refine ⟨Op.editMsg :: Op.clearReactions
                  :: (multichoiceGetReactions embeds multiple h').map Op.addReaction
                  ++ navOps', ?_, ?_⟩
              · simp only [multichoiceLoop, hc, if_true, hl, hadj]
                rw [if_neg hx, h1]
                simp [List.append_assoc]
              · intro op hop
                simp only [List.cons_append, List.mem_cons, List.mem_append,
                  List.mem_map] at hop
                rcases hop with rfl | rfl | ⟨e, -, he⟩ | hop
                · exact Or.inl rfl
                · exact Or.inr (Or.inl rfl)
                · exact Or.inr (Or.inr ⟨e, he.symm⟩)
                · exact h2 op hop
    · have hcr2 : (multichoiceLoop embeds multiple botUser authorUser ctxChannel cf head
          toReact rest).2 ≠ .crashed := by
        intro h0
        apply hcr
        simp [multichoiceLoop, hc, h0]
      simpa [multichoiceLoop, hc] using ih head toReact hcr2

/-- C10 — amended.  `arrows` and `confirm` attempt the affordance-clear
operation exactly once on every exit path before returning — the trace of a
`confirm` call always ends with the ops of exactly one best-effort
`try_clear_reactions` call (whose permission failure is swallowed inside the
helper), and the trace of a multi-embed `arrows` call ends with the exit
segment `arrowsExit` of its result, which performs exactly one
`try_clear_reactions` call (the close exit following it with the closing
edit; in a guild that is exactly one raw clear).  `multichoice`, however,
attempts the affordance-clear on no exit path at all: for every options list
— multi-page included — and every run that exits (timeout, close or
selection rather than an unhandled exception), the trace ends with exactly
the message delete, and everything before it is the send, the initial
re-attachments, and navigation ops (edit / clear / re-attach), so any clear
attempt happens strictly before the exit, on a navigation transition. -/
theorem menus_clear_on_exit :
    (∀ (botId authorId msgId : Nat) (lock : Lock) (rolesOf : Nat → List Nat)
        (inGuild : Bool) (events : List RawPayload),
      (confirm botId authorId msgId lock rolesOf inGuild events).1
        = confirmEmojis.map Op.addReaction ++ try_clear_reactions inGuild) ∧
    (∀ (α : Type) (embed_list : List α) (msgId authorId : Nat) (inGuild : Bool)
        (head : Int) (events : List RawPayload),
      2 ≤ embed_list.length → 0 ≤ head → head < (embed_list.length : Int) →
      ∃ navOps,
        (arrows embed_list msgId authorId inGuild head events).1
          = Op.send :: (arrowsGetReactions embed_list.length head).map Op.addReaction
              ++ navOps
              ++ arrowsExit inGuild (arrows embed_list msgId authorId inGuild head events).2
        ∧ ((arrows embed_list msgId authorId inGuild head events).2 = .timedOut
          ∨ (arrows embed_list msgId authorId inGuild head events).2 = .paused
          ∨ (arrows embed_list msgId authorId inGuild head events).2 = .closed)
        ∧ ((arrowsExit true (arrows embed_list msgId authorId inGuild head events).2).count
            Op.clearReactions) = 1) ∧
    (∀ (options : List String) (botUser authorUser ctxChannel : Nat) (clearForbidden : Bool)
        (events : List (Reaction × Nat)) (trace : List Op) (outcome : MultiOutcome),
      multichoice options botUser authorUser ctxChannel clearForbidden events
          = .ok (trace, outcome) →
      outcome ≠ .crashed →
      ∃ initAdds navOps,
        trace = Op.send :: initAdds ++ navOps ++ [Op.deleteMsg]
        ∧ (∀ op ∈ initAdds, ∃ e, op = Op.addReaction e)
        ∧ (∀ op ∈ navOps,
            op = Op.editMsg ∨ op = Op.clearReactions ∨ ∃ e, op = Op.addReaction e)) := by
  refine ⟨?_, ?_, ?_⟩
  · intro botId authorId msgId lock rolesOf inGuild events
    have h := confirmRun_ops botId authorId msgId lock rolesOf inGuild events
    simp only [confirm]
    rw [h]
  · intro α embed_list msgId authorId inGuild head events hlen hh0 hh1
    have hne : ¬ embed_list.length = 1 := by omega
    obtain ⟨navOps, h1, hkind⟩ := arrowsLoop_decomp embed_list.length msgId authorId inGuild
      events head (arrowsGetReactions embed_list.length head)
      (mem_arrowsGetReactions embed_list.length head)
    have h2 : (arrows embed_list msgId authorId inGuild head events).2
        = (arrowsLoop embed_list.length msgId authorId inGuild head
            (arrowsGetReactions embed_list.length head) events).2 := by
      simp [arrows, hne]
    refine ⟨navOps, ?_, ?_, ?_⟩
    · simp only [arrows, hne, if_false, h2]
      rw [h1]
      simp [List.append_assoc]
    · rw [h2]
      exact hkind
    · rw [h2]
      rcases hkind with h | h | h <;> rw [h] <;> decide
  · intro options botUser authorUser ctxChannel clearForbidden events trace outcome hok hcr
    by_cases hnil : options = []
    · rw [hnil] at hok
      simp [multichoice] at hok
    · simp only [multichoice] at hok
      rw [if_neg hnil] at hok
      cases hany : options.any fun opt => decide (2000 < opt.length) with
      | true => rw [hany] at hok; simp at hok
      | false =>
        rw [hany] at hok
        simp only [Bool.false_eq_true, if_false] at hok
        cases hcs : chunkify_string_list options 10 2000 10 with
        | error e => rw [hcs] at hok; simp at hok
        | ok embeds =>
          rw [hcs] at hok
          have hpair := Except.ok.inj hok
          have ht : trace
              = Op.send :: ((multichoiceGetReactions embeds (decide (10 < options.length))
                    0).map Op.addReaction)
                ++ (multichoiceLoop embeds (decide (10 < options.length)) botUser authorUser
                    ctxChannel clearForbidden 0
                    (multichoiceGetReactions embeds (decide (10 < options.length)) 0)
                    events).1 :=
            (Prod.ext_iff.mp hpair).1.symm
          have hout : outcome
              = (multichoiceLoop embeds (decide (10 < options.length)) botUser authorUser
                  ctxChannel clearForbidden 0
                  (multichoiceGetReactions embeds (decide (10 < options.length)) 0)
                  events).2 :=
            (Prod.ext_iff.mp hpair).2.symm
          have hcr2 : (multichoiceLoop embeds (decide (10 < options.length)) botUser authorUser
              ctxChannel clearForbidden 0
              (multichoiceGetReactions embeds (decide (10 < options.length)) 0)
              events).2 ≠ .crashed := by
            rw [← hout]
            exact hcr
          obtain ⟨navOps, hnav1, hnav2⟩ := multichoiceLoop_decomp embeds
            (decide (10 < options.length)) botUser authorUser ctxChannel clearForbidden events
            0 (multichoiceGetReactions embeds (decide (10 < options.length)) 0) hcr2
          refine ⟨(multichoiceGetReactions embeds (decide (10 < options.length)) 0).map
              Op.addReaction, navOps, ?_, ?_, hnav2⟩
          · rw [ht, hnav1]
            simp [List.append_assoc]
          · intro op hop
            rw [List.mem_map] at hop
            obtain ⟨e, -, he⟩ := hop
            exact ⟨e, he.symm⟩

/-- C10 — witness: a timed-out `confirm`, a two-embed timed-out `arrows`
(both heads valid), and an 11-option (two-page) `multichoice` whose run
navigates once — performing its clear mid-trace — and then times out, its
trace still ending with exactly the delete. -/
theorem menus_clear_on_exit_witness :
    ((confirm 2 1 100 (.lockBool true) (fun _ => []) true []).1
      = confirmEmojis.map Op.addReaction ++ try_clear_reactions true) ∧
    (∃ navOps,
      (arrows ([10, 20] : List Nat) 100 1 true 0 []).1
        = Op.send :: (arrowsGetReactions ([10, 20] : List Nat).length 0).map Op.addReaction
            ++ navOps ++ arrowsExit true (arrows ([10, 20] : List Nat) 100 1 true 0 []).2
      ∧ ((arrows ([10, 20] : List Nat) 100 1 true 0 []).2 = .timedOut
        ∨ (arrows ([10, 20] : List Nat) 100 1 true 0 []).2 = .paused
        ∨ (arrows ([10, 20] : List Nat) 100 1 true 0 []).2 = .closed)
      ∧ ((arrowsExit true (arrows ([10, 20] : List Nat) 100 1 true 0 []).2).count
          Op.clearReactions) = 1) ∧
    (∃ initAdds navOps,
      ([Op.send, Op.addReaction Emoji.ONE, Op.addReaction Emoji.TWO,
          Op.addReaction Emoji.THREE, Op.addReaction Emoji.FOUR, Op.addReaction Emoji.FIVE,
          Op.addReaction Emoji.SIX, Op.addReaction Emoji.SEVEN, Op.addReaction Emoji.EIGHT,
          Op.addReaction Emoji.NINE, Op.addReaction Emoji.TEN, Op.addReaction Emoji.PLAY,
          Op.addReaction Emoji.NEXT_TRACK, Op.addReaction Emoji.X, Op.editMsg,
          Op.clearReactions, Op.addReaction Emoji.LAST_TRACK, Op.addReaction Emoji.REVERSE,
          Op.addReaction Emoji.ONE, Op.addReaction Emoji.X, Op.deleteMsg] : List Op)
        = Op.send :: initAdds ++ navOps ++ [Op.deleteMsg]
      ∧ (∀ op ∈ initAdds, ∃ e, op = Op.addReaction e)
      ∧ (∀ op ∈ navOps,
          op = Op.editMsg ∨ op = Op.clearReactions ∨ ∃ e, op = Op.addReaction e)) :=
  ⟨menus_clear_on_exit.1 2 1 100 (.lockBool true) (fun _ => []) true [],
    menus_clear_on_exit.2.1 Nat [10, 20] 100 1 true 0 [] (by decide) (by decide) (by decide),
    menus_clear_on_exit.2.2 opts11 2 1 5 false [evPlay]
      [Op.send, Op.addReaction Emoji.ONE, Op.addReaction Emoji.TWO,
        Op.addReaction Emoji.THREE, Op.addReaction Emoji.FOUR, Op.addReaction Emoji.FIVE,
        Op.addReaction Emoji.SIX, Op.addReaction Emoji.SEVEN, Op.addReaction Emoji.EIGHT,
        Op.addReaction Emoji.NINE, Op.addReaction Emoji.TEN, Op.addReaction Emoji.PLAY,
        Op.addReaction Emoji.NEXT_TRACK, Op.addReaction Emoji.X, Op.editMsg,
        Op.clearReactions, Op.addReaction Emoji.LAST_TRACK, Op.addReaction Emoji.REVERSE,
        Op.addReaction Emoji.ONE, Op.addReaction Emoji.X, Op.deleteMsg]
      .noValue (by decide) (by decide)⟩
